import Mathlib

/-!
Verification development for the Supervisorai repository.

The development shallowly embeds the two supervision policy engines
(`src/supervisor_agent/minimax_agent.py` and
`src/supervisor_agent/expectimax_agent.py`) and the orchestrator core
(`src/orchestrator/core.py`).  Python floats are modelled as exact
rationals, Python ints as integers, and Python dataclasses as Lean
structures.  The in-place mutation performed by `MinimaxAgent.minimax`
on its argument object is modelled by threading the object value
explicitly.  The orchestrator's non-reentrant `threading.Lock` is
modelled by a boolean lock state where a second acquisition by the
same thread yields `none` (the thread blocks forever, since the thread
that would have to release the lock is the blocked one itself).
-/

namespace Supervisorai

/-- The closed set of supervisor interventions, shared verbatim by both
policy-engine modules. -/
inductive Action where
  | ALLOW
  | WARN
  | CORRECT
  | ESCALATE
deriving DecidableEq, Repr

/-- Maximum of a list of rationals.  The Python sources compute this by
folding `max` starting from `-math.inf`; on the non-empty lists that
actually occur this equals the list maximum, which is what this helper
returns (the `[]` case is junk and is never reached because the legal
action list is never empty). -/
def maxQ : List ℚ → ℚ
  | [] => 0
  | [x] => x
  | x :: y :: t => max x (maxQ (y :: t))

/-- One iteration of the best-scored element selection loop shared by both
`get_best_action` implementations: an entry replaces the incumbent only
when its score is strictly greater (`if score > best_score`). -/
def pickBestStep (acc : Option (Action × ℚ)) (x : Action × ℚ) : Option (Action × ℚ) :=
  match acc with
  | none => some x
  | some best => if best.2 < x.2 then some x else some best

/-- The best-scored element selection loop of `get_best_action`:
`best_score` starts at `-math.inf` and `best_action` at `None` (together
modelled by `none`), so the first entry with the greatest score is kept. -/
def pickBest (xs : List (Action × ℚ)) : Option (Action × ℚ) :=
  xs.foldl pickBestStep none

/-- Result record returned by `get_best_action` (both modules return a dict
with these four entries).  `best_score = none` models the initial
`-math.inf`; it is `some` whenever at least one action was considered. -/
structure BestResult (σ : Type) where
  best_action : Action
  best_score : Option ℚ
  considered_actions : List (Action × ℚ)
  state_evaluated : σ

/-- The common result-building code of both `get_best_action`
implementations: score every legal action, keep the strictly best score
(first encountered on ties), fall back to `ALLOW` when no action was
considered, and report all considered actions sorted by score descending
(`sorted(..., key=score, reverse=True)`, a stable descending sort). -/
def mkBestResult {σ : Type} (sEval : σ) (actions : List Action) (score : Action → ℚ) :
    BestResult σ :=
  let scored := actions.map (fun a => (a, score a))
  let best := pickBest scored
  { best_action := (best.map Prod.fst).getD Action.ALLOW,
    best_score := best.map Prod.snd,
    considered_actions := scored.mergeSort (fun x y => decide (y.2 ≤ x.2)),
    state_evaluated := sEval }

namespace Minimax

/-- `AgentState` dataclass of `minimax_agent.py` (four fields, no drift). -/
structure AgentState where
  quality_score : ℚ
  error_count : ℤ
  resource_usage : ℚ
  task_progress : ℚ
deriving DecidableEq, Repr

/-- `AgentState.is_terminal`: task complete or quality collapsed. -/
def AgentState.isTerminal (s : AgentState) : Prop :=
  1 ≤ s.task_progress ∨ s.quality_score ≤ 0.1

instance (s : AgentState) : Decidable s.isTerminal :=
  inferInstanceAs (Decidable (1 ≤ s.task_progress ∨ s.quality_score ≤ 0.1))

/-- `MinimaxAgent._evaluate_state`. -/
def evaluateState (s : AgentState) : ℚ :=
  if s.isTerminal then
    if 1 ≤ s.task_progress then 1000 else -1000
  else
    s.quality_score * 70 + s.task_progress * 30
      - (s.error_count : ℚ) * 200 - s.resource_usage * 40

/-- `MinimaxAgent._get_possible_actions`.  The source returns
`list(set(actions))`; each branch builds a duplicate-free list, so the set
conversion only permutes, and we model the branch order as written. -/
def possibleActions (s : AgentState) : List Action :=
  if 3 ≤ s.error_count then [Action.ESCALATE]
  else if 0.9 < s.quality_score then [Action.ALLOW, Action.WARN]
  else if s.quality_score < 0.4 then [Action.CORRECT, Action.ESCALATE]
  else [Action.ALLOW, Action.WARN, Action.CORRECT, Action.ESCALATE]

/-- `MinimaxAgent._apply_action`: a fresh copy of the state is updated per
action, and every action finishes with the `+0.05` resource clamp. -/
def applyAction (s : AgentState) (a : Action) : AgentState :=
  let n : AgentState :=
    match a with
    | Action.ALLOW =>
        { s with task_progress := s.task_progress + 0.1,
                 quality_score := s.quality_score * 0.95 }
    | Action.WARN =>
        { s with task_progress := s.task_progress + 0.05,
                 resource_usage := min 1 (s.resource_usage + 0.1) }
    | Action.CORRECT =>
        let n0 : AgentState := { s with resource_usage := min 1 (s.resource_usage + 0.15) }
        let n1 : AgentState :=
          if s.quality_score < 0.85 then
            { n0 with quality_score := min 1 (s.quality_score + 0.4 * (1 - s.quality_score)),
                      error_count := max 0 (s.error_count - 1) }
          else n0
        { n1 with task_progress := n1.task_progress + 0.1 }
    | Action.ESCALATE =>
        { s with task_progress := s.task_progress * 0.2,
                 quality_score := s.quality_score * 0.1,
                 error_count := s.error_count + 1 }
  { n with resource_usage := min 1 (n.resource_usage + 0.05) }

/-- `MinimaxAgent.minimax`.  The minimizing branch mutates the argument
object in place (`next_natural_state = state` aliases, then
`quality_score *= 0.95`); the embedding returns the value together with the
final field contents of the argument object so that this mutation is
visible to callers.  The maximizing branch only passes fresh copies made by
`_apply_action`, so its argument is returned unchanged. -/
def minimaxRun : Nat → AgentState → Bool → ℚ × AgentState
  | 0, s, _ => (evaluateState s, s)
  | d + 1, s, maximizing =>
    if s.isTerminal then (evaluateState s, s)
    else if maximizing then
      (maxQ ((possibleActions s).map (fun a => (minimaxRun d (applyAction s a) false).1)), s)
    else
      let ns : AgentState := { s with quality_score := s.quality_score * 0.95 }
      ((minimaxRun d ns true).1, ns)

/-- `MinimaxAgent.get_best_action`: each legal action is scored by applying
it and running `minimax(new_state, self.depth, False)`; the strictly best
score wins and ties keep the first action encountered. -/
def getBestAction (depth : Nat) (s : AgentState) : BestResult AgentState :=
  mkBestResult s (possibleActions s) (fun a => (minimaxRun depth (applyAction s a) false).1)

end Minimax

namespace Expectimax

/-- `AgentState` dataclass of `expectimax_agent.py`: the minimax fields plus
`drift_score`, which defaults to `0.0`. -/
structure AgentState where
  quality_score : ℚ
  error_count : ℤ
  resource_usage : ℚ
  task_progress : ℚ
  drift_score : ℚ := 0
deriving DecidableEq, Repr

/-- `AgentState.is_terminal`: task complete or quality collapsed. -/
def AgentState.isTerminal (s : AgentState) : Prop :=
  1 ≤ s.task_progress ∨ s.quality_score ≤ 0.1

instance (s : AgentState) : Decidable s.isTerminal :=
  inferInstanceAs (Decidable (1 ≤ s.task_progress ∨ s.quality_score ≤ 0.1))

/-- `ExpectimaxAgent._evaluate_state` (weights 60/20 with a 100-weighted
drift penalty, unlike the minimax module). -/
def evaluateState (s : AgentState) : ℚ :=
  if s.isTerminal then
    if 1 ≤ s.task_progress then 1000 else -1000
  else
    s.quality_score * 60 + s.task_progress * 20 - s.drift_score * 100
      - (s.error_count : ℚ) * 200 - s.resource_usage * 40

/-- `ExpectimaxAgent._get_possible_actions`.  Identical to the minimax
version except that the high-quality branch tests `>= 0.9` instead of
`> 0.9`.  The `list(set(...))` conversion is modelled as the written
order, as in the minimax module. -/
def possibleActions (s : AgentState) : List Action :=
  if 3 ≤ s.error_count then [Action.ESCALATE]
  else if 0.9 ≤ s.quality_score then [Action.ALLOW, Action.WARN]
  else if s.quality_score < 0.4 then [Action.CORRECT, Action.ESCALATE]
  else [Action.ALLOW, Action.WARN, Action.CORRECT, Action.ESCALATE]

/-- `ExpectimaxAgent._get_action_outcomes`: the probability-weighted
successor states of one action.  The base successor is built from the four
main fields only, so `drift_score` falls back to its default `0.0`, and all
outcomes start from the `+0.05` resource clamp. -/
def getActionOutcomes (s : AgentState) (a : Action) : List (ℚ × AgentState) :=
  let base : AgentState :=
    { quality_score := s.quality_score,
      error_count := s.error_count,
      resource_usage := min 1 (s.resource_usage + 0.05),
      task_progress := s.task_progress }
  match a with
  | Action.ALLOW =>
      let degrade : AgentState :=
        { base with quality_score := base.quality_score * 0.95,
                    task_progress := base.task_progress + 0.1 }
      let same : AgentState := { base with task_progress := base.task_progress + 0.1 }
      [(0.8, degrade), (0.2, same)]
  | Action.WARN =>
      let warned : AgentState :=
        { base with task_progress := base.task_progress + 0.05,
                    resource_usage := min 1 (base.resource_usage + 0.1) }
      [(1, warned)]
  | Action.CORRECT =>
      let success0 : AgentState := { base with resource_usage := min 1 (base.resource_usage + 0.15) }
      let success1 : AgentState :=
        if s.quality_score < 0.85 then
          { success0 with quality_score := min 1 (s.quality_score + 0.4 * (1 - s.quality_score)),
                          error_count := max 0 (s.error_count - 1) }
        else success0
      let success : AgentState := { success1 with task_progress := success1.task_progress + 0.1 }
      let fail : AgentState :=
        { base with resource_usage := min 1 (base.resource_usage + 0.15),
                    task_progress := base.task_progress + 0.02 }
      [(0.7, success), (0.3, fail)]
  | Action.ESCALATE =>
      let esc : AgentState :=
        { base with task_progress := base.task_progress * 0.2,
                    quality_score := base.quality_score * 0.1,
                    error_count := base.error_count + 1 }
      [(1, esc)]

/-- `ExpectimaxAgent._get_action_value`: the expected value of one action.
At depth `0` or in a terminal state it returns the static evaluation of the
state itself; otherwise it sums, over the stochastic outcomes of the
action, the probability times the best recursive action value of the
successor at one depth less. -/
def getActionValue : Nat → AgentState → Action → ℚ
  | 0, s, _ => evaluateState s
  | d + 1, s, a =>
    if s.isTerminal then evaluateState s
    else
      ((getActionOutcomes s a).map
        (fun po => po.1 * maxQ ((possibleActions po.2).map (getActionValue d po.2)))).sum

/-- `ExpectimaxAgent.get_best_action`: scores every legal action with
`_get_action_value(state, action, self.depth, ...)` and keeps the strictly
best one, first encountered on ties; `None` falls back to `ALLOW`. -/
def getBestAction (depth : Nat) (s : AgentState) : BestResult AgentState :=
  mkBestResult s (possibleActions s) (getActionValue depth s)

end Expectimax

namespace Orchestrator

/-- Modelled from the spec: `orchestrator/models.py` is not among the
sources; agent status per section 3 of the spec. -/
inductive AgentStatus where
  | IDLE
  | BUSY
deriving DecidableEq, Repr

/-- Modelled from the spec: `orchestrator/models.py` is not among the
sources; task status per section 3 of the spec. -/
inductive TaskStatus where
  | PENDING
  | RUNNING
  | COMPLETED
  | FAILED
deriving DecidableEq, Repr

/-- Modelled from the spec: `orchestrator/models.py` is not among the
sources; `ManagedAgent` per section 3 of the spec (identity, display name,
capability tags, status defaulting to idle, optional current task,
last-seen timestamp, here an abstract tick). -/
structure ManagedAgent where
  agent_id : String
  name : String
  capabilities : List String
  status : AgentStatus := AgentStatus.IDLE
  current_task_id : Option String := none
  last_seen : ℕ := 0
deriving DecidableEq, Repr

/-- The structured result returned by the validation collaborator.  Only
the boolean intervention flag is consumed by the orchestrator
(`validation_result['intervention_result']['intervention_required']`). -/
structure ValidationResult where
  intervention_required : Bool
deriving DecidableEq, Repr

/-- Task output as stored by `_execute_task`: either the validation result
or the captured text of a raised exception (`{"error": str(e)}`). -/
inductive TaskOutput where
  | validated (result : ValidationResult)
  | failure (msg : String)
deriving DecidableEq, Repr

/-- Modelled from the spec: `orchestrator/models.py` is not among the
sources; `OrchestrationTask` per section 3 of the spec, with no
dependencies, `PENDING` status and empty output as creation defaults. -/
structure OrchestrationTask where
  task_id : String
  name : String
  description : String
  required_capabilities : List String
  dependencies : List String := []
  status : TaskStatus := TaskStatus.PENDING
  output_data : Option TaskOutput := none
  completed_at : Option ℕ := none
deriving DecidableEq, Repr

/-- Modelled from the spec: `orchestrator/models.py` is not among the
sources; `ProjectGoal` per section 3 of the spec.  The task mapping is
modelled as a list in insertion order. -/
structure ProjectGoal where
  goal_id : String
  name : String
  description : String
  tasks : List OrchestrationTask := []
deriving DecidableEq, Repr

/-- Acquiring the orchestrator's `threading.Lock`.  The lock is not
reentrant: when the same thread acquires it a second time the thread
blocks forever (nobody else will release it), modelled by `none`. -/
def acquire (held : Bool) : Option Bool :=
  if held then none else some true

/-- `Orchestrator.get_agent`: acquires the lock, looks the agent up by id,
and releases the lock on exit of the `with` block. -/
def getAgentL (held : Bool) (pool : List ManagedAgent) (agentId : String) :
    Option (Bool × Option ManagedAgent) := do
  let _ ← acquire held
  pure (false, pool.find? (fun ag => ag.agent_id == agentId))

/-- Field update applied by `update_agent_status` to the named agent. -/
def setStatus (pool : List ManagedAgent) (agentId : String) (st : AgentStatus)
    (taskId : Option String) (now : ℕ) : List ManagedAgent :=
  pool.map (fun ag =>
    if ag.agent_id == agentId then
      { ag with status := st, current_task_id := taskId, last_seen := now }
    else ag)

/-- `Orchestrator.update_agent_status`: enters `with self._lock`, then calls
`self.get_agent(agent_id)` while still holding the lock; with an unknown id
it logs a warning and is a no-op.  The nested `get_agent` re-acquires the
same non-reentrant lock, so the nested acquisition returns `none`. -/
def updateAgentStatusL (pool : List ManagedAgent) (agentId : String)
    (st : AgentStatus) (taskId : Option String) (now : ℕ) :
    Option (List ManagedAgent) := do
  let h ← acquire false
  let inner ← getAgentL h pool agentId
  match inner.2 with
  | some _ => pure (setStatus pool agentId st taskId now)
  | none => pure pool

/-- `Orchestrator.find_available_agent`: first agent in registration order
that is idle and has every required capability. -/
def findAvailableAgent (pool : List ManagedAgent) (required : List String) :
    Option ManagedAgent :=
  pool.find? (fun ag =>
    ag.status == AgentStatus.IDLE && required.all (fun c => ag.capabilities.contains c))

/-- ASCII lowercase of one character, as Python's `str.lower` acts on the
ASCII range (the decomposition keywords are ASCII). -/
def charLower (c : Char) : Char :=
  if c.isUpper then Char.ofNat (c.toNat + 32) else c

/-- Lowercase of a string, modelling `goal_description.lower()`. -/
def strLower (s : String) : String := ⟨s.data.map charLower⟩

/-- Whether `pat` occurs as a contiguous run at the head of `l`. -/
def leadsWith : List Char → List Char → Bool
  | [], _ => true
  | _ :: _, [] => false
  | a :: as, b :: bs => a == b && leadsWith as bs

/-- Whether `pat` occurs as a contiguous run anywhere in `l`, modelling
Python's `pat in s` substring test. -/
def containsSeq (pat : List Char) : List Char → Bool
  | [] => pat.isEmpty
  | c :: t => leadsWith pat (c :: t) || containsSeq pat t

/-- Python's `needle in hay` on strings. -/
def strContains (hay needle : String) : Bool := containsSeq needle.data hay.data

/-- The keyword trigger of `submit_goal`:
`"script" in goal_description.lower() and "scrape" in goal_description.lower()`. -/
def scrapeScriptTrigger (goalDescription : String) : Bool :=
  strContains (strLower goalDescription) "script" && strContains (strLower goalDescription) "scrape"

/-- `Orchestrator.submit_goal`: rule-based decomposition of a goal into a
project.  `numProjects` is `len(self.projects)` at submission time, used to
mint the goal id. -/
def submitGoal (numProjects : Nat) (goalName goalDescription : String) : ProjectGoal :=
  let goalId := "goal-" ++ toString (numProjects + 1)
  if scrapeScriptTrigger goalDescription then
    let t1 : OrchestrationTask :=
      { task_id := goalId ++ "-t1", name := "Write Scraper Code",
        description := "Write the main Python script for scraping.",
        required_capabilities := ["python", "file_io"] }
    let t2 : OrchestrationTask :=
      { task_id := goalId ++ "-t2", name := "Write Unit Tests",
        description := "Write tests for the scraper script.",
        required_capabilities := ["python", "test_execution"],
        dependencies := [t1.task_id] }
    let t3 : OrchestrationTask :=
      { task_id := goalId ++ "-t3", name := "Generate Report",
        description := "Summarize the scraped data and methodology.",
        required_capabilities := ["text_analysis"],
        dependencies := [t1.task_id] }
    { goal_id := goalId, name := goalName, description := goalDescription,
      tasks := [t1, t2, t3] }
  else
    let t1 : OrchestrationTask :=
      { task_id := goalId ++ "-t1", name := "Execute Goal",
        description := goalDescription, required_capabilities := ["general"] }
    { goal_id := goalId, name := goalName, description := goalDescription,
      tasks := [t1] }

/-- `Orchestrator._execute_task`.  The external monitor and validate calls
together with the simulated work are summarised by `outcome`: either the
validation result they produce or the text of the exception one of them
raises.  The try-block updates the task under a balanced
acquire-and-release of the (free) lock; the `finally` block then calls
`update_agent_status(agent.agent_id, AgentStatus.IDLE)`, whose nested
lock acquisition is modelled by `updateAgentStatusL`.  The first component
is the task as observable in shared state after the try/except body; the
second is the agent pool after the `finally` step, `none` when that step
never completes. -/
def executeTask (outcome : Except String ValidationResult)
    (task : OrchestrationTask) (pool : List ManagedAgent) (agentId : String)
    (now : ℕ) : OrchestrationTask × Option (List ManagedAgent) :=
  let t1 : OrchestrationTask :=
    match outcome with
    | Except.ok v =>
        { task with
            output_data := some (TaskOutput.validated v),
            status := if v.intervention_required then TaskStatus.FAILED else TaskStatus.COMPLETED,
            completed_at := some now }
    | Except.error e =>
        { task with status := TaskStatus.FAILED,
                    output_data := some (TaskOutput.failure e) }
  (t1, updateAgentStatusL pool agentId AgentStatus.IDLE none now)

/-- Concrete running task fixture (the first decomposition task, as
assigned by the scheduler). -/
def demoTask : OrchestrationTask :=
  { task_id := "goal-1-t1", name := "Write Scraper Code",
    description := "Write the main Python script for scraping.",
    required_capabilities := ["python", "file_io"],
    status := TaskStatus.RUNNING }

/-- Concrete busy agent fixture executing `demoTask`. -/
def demoAgent : ManagedAgent :=
  { agent_id := "agent-1", name := "MultiAgent",
    capabilities := ["python", "file_io", "test_execution"],
    status := AgentStatus.BUSY, current_task_id := some "goal-1-t1" }

/-- Concrete one-agent registry fixture. -/
def demoPool : List ManagedAgent := [demoAgent]

end Orchestrator

/-! General lemmas about the selection loop and list search used by the
claim theorems. -/

/-- Running the selection loop from an incumbent `b` yields the first entry
of `b :: xs` carrying the greatest score: everything before it scores
strictly less and everything after it scores at most as much. -/
theorem foldl_pickBestStep_some (xs : List (Action × ℚ)) (b : Action × ℚ) :
    ∃ p l1 l2, xs.foldl pickBestStep (some b) = some p ∧ b :: xs = l1 ++ p :: l2 ∧
      (∀ x ∈ l1, x.2 < p.2) ∧ (∀ x ∈ l2, x.2 ≤ p.2) := by
  induction xs generalizing b with
  | nil =>
    exact ⟨b, [], [], rfl, rfl, by simp, by simp⟩
  | cons x xs ih =>
    by_cases hc : b.2 < x.2
    · obtain ⟨p, l1, l2, hfold, hsplit, hlt, hle⟩ := ih x
      have hxle : x.2 ≤ p.2 := by
        have hx : x ∈ l1 ++ p :: l2 := by
          rw [← hsplit]; exact List.mem_cons_self x xs
        rcases List.mem_append.mp hx with h1 | h2
        · exact le_of_lt (hlt x h1)
        · rcases List.mem_cons.mp h2 with h3 | h4
          · rw [h3]
          · exact hle x h4
      refine ⟨p, b :: l1, l2, ?_, ?_, ?_, hle⟩
      · simpa [pickBestStep, hc] using hfold
      · rw [List.cons_append, ← hsplit]
      · intro y hy
        rcases List.mem_cons.mp hy with h1 | h2
        · rw [h1]; exact lt_of_lt_of_le hc hxle
        · exact hlt y h2
    · obtain ⟨p, l1, l2, hfold, hsplit, hlt, hle⟩ := ih b
      have hfold2 : (x :: xs).foldl pickBestStep (some b) = some p := by
        simpa [pickBestStep, hc] using hfold
      cases l1 with
      | nil =>
        obtain ⟨hb, hxs⟩ : b = p ∧ xs = l2 := by
          simpa using hsplit
        refine ⟨p, [], x :: l2, hfold2, ?_, by simp, ?_⟩
        · rw [hb, hxs]; simp
        · intro y hy
          rcases List.mem_cons.mp hy with h1 | h2
          · rw [h1, ← hb]; exact le_of_not_lt hc
          · exact hle y h2
      | cons c l1t =>
        obtain ⟨hb, hxs⟩ : b = c ∧ xs = l1t ++ p :: l2 := by
          simpa using hsplit
        have hbp : b.2 < p.2 := by
          refine hlt b ?_
          rw [hb]; exact List.mem_cons_self c l1t
        refine ⟨p, b :: x :: l1t, l2, hfold2, ?_, ?_, hle⟩
        · rw [hxs]; simp
        · intro y hy
          rcases List.mem_cons.mp hy with h1 | h2
          · rw [h1]; exact hbp
          · rcases List.mem_cons.mp h2 with h3 | h4
            · rw [h3]; exact lt_of_le_of_lt (le_of_not_lt hc) hbp
            · exact hlt y (List.mem_cons_of_mem c h4)

/-- The selection loop over a non-empty list keeps the first entry with the
greatest score. -/
theorem pickBest_cons_spec (x : Action × ℚ) (xs : List (Action × ℚ)) :
    ∃ p l1 l2, pickBest (x :: xs) = some p ∧ x :: xs = l1 ++ p :: l2 ∧
      (∀ y ∈ l1, y.2 < p.2) ∧ (∀ y ∈ l2, y.2 ≤ p.2) := by
  simpa [pickBest, pickBestStep] using foldl_pickBestStep_some xs x

/-- Specification of the shared result builder on a non-empty action list:
the reported best action is the first action whose score is greatest, the
reported best score is its score, and the evaluated state is returned
unchanged. -/
theorem mkBestResult_spec {σ : Type} (sEval : σ) (a0 : Action) (as : List Action)
    (score : Action → ℚ) :
    ∃ v l1 l2,
      (a0 :: as).map (fun a => (a, score a))
          = l1 ++ ((mkBestResult sEval (a0 :: as) score).best_action, v) :: l2
        ∧ (mkBestResult sEval (a0 :: as) score).best_score = some v
        ∧ score (mkBestResult sEval (a0 :: as) score).best_action = v
        ∧ (∀ x ∈ l1, x.2 < v) ∧ (∀ x ∈ l2, x.2 ≤ v)
        ∧ (mkBestResult sEval (a0 :: as) score).state_evaluated = sEval := by
  obtain ⟨p, l1, l2, hpick, hsplit, hlt, hle⟩ :=
    pickBest_cons_spec (a0, score a0) (as.map (fun a => (a, score a)))
  have hscored : (a0 :: as).map (fun a => (a, score a))
      = (a0, score a0) :: as.map (fun a => (a, score a)) := by simp
  have hba : (mkBestResult sEval (a0 :: as) score).best_action = p.1 := by
    simp [mkBestResult, hscored, hpick]
  have hbs : (mkBestResult sEval (a0 :: as) score).best_score = some p.2 := by
    simp [mkBestResult, hscored, hpick]
  have hpmem : p ∈ (a0 :: as).map (fun a => (a, score a)) := by
    rw [hscored, hsplit]
    exact List.mem_append.mpr (Or.inr (List.mem_cons_self p l2))
  obtain ⟨a, _, hpa⟩ := List.mem_map.mp hpmem
  have hps : score p.1 = p.2 := by
    rw [← hpa]
  refine ⟨p.2, l1, l2, ?_, hbs, ?_, hlt, hle, rfl⟩
  · rw [hscored, hsplit, hba]
  · rw [hba, hps]

/-- The reported best action of the shared result builder is one of the
scored actions. -/
theorem mkBestResult_mem {σ : Type} (sEval : σ) (a0 : Action) (as : List Action)
    (score : Action → ℚ) :
    (mkBestResult sEval (a0 :: as) score).best_action ∈ a0 :: as := by
  obtain ⟨v, l1, l2, hsplit, -, -, -, -, -⟩ := mkBestResult_spec sEval a0 as score
  have hmem : ((mkBestResult sEval (a0 :: as) score).best_action, v)
      ∈ (a0 :: as).map (fun a => (a, score a)) := by
    rw [hsplit]
    exact List.mem_append.mpr (Or.inr (List.mem_cons_self _ l2))
  obtain ⟨a, ha, hpa⟩ := List.mem_map.mp hmem
  have : a = (mkBestResult sEval (a0 :: as) score).best_action := congrArg Prod.fst hpa
  rwa [← this]

/-- A successful list search returns an element at the first satisfying
position: no earlier element satisfies the predicate. -/
theorem find?_split {α : Type} (p : α → Bool) :
    ∀ (l : List α) (a : α), l.find? p = some a →
      ∃ l1 l2, l = l1 ++ a :: l2 ∧ ∀ b ∈ l1, ¬ p b := by
  intro l
  induction l with
  | nil => intro a h; simp at h
  | cons x xs ih =>
    intro a h
    by_cases hx : p x
    · have hax : x = a := by
        have := List.find?_cons_of_pos (l := xs) hx
        rw [this] at h
        exact Option.some.inj h
      exact ⟨[], xs, by rw [hax]; simp, by simp⟩
    · have h2 : xs.find? p = some a := by
        have := List.find?_cons_of_neg (l := xs) (by simpa using hx)
        rwa [this] at h
      obtain ⟨l1, l2, hsplit, hnb⟩ := ih a h2
      refine ⟨x :: l1, l2, by rw [hsplit]; simp, ?_⟩
      intro b hb
      rcases List.mem_cons.mp hb with h1 | h2b
      · rwa [h1]
      · exact hnb b h2b

namespace Minimax

/-- The legality rules always yield at least one legal action. -/
theorem minimax_possibleActions_ne_nil (s : AgentState) : possibleActions s ≠ [] := by
  unfold possibleActions
  split_ifs <;> simp

end Minimax

namespace Expectimax

/-- The legality rules always yield at least one legal action. -/
theorem expectimax_possibleActions_ne_nil (s : AgentState) : possibleActions s ≠ [] := by
  unfold possibleActions
  split_ifs <;> simp

end Expectimax

/-- C2 counterexample: at the non-terminal state with quality 0.5, no
errors, resource usage 0.5 and progress 0.5, the expectimax evaluation
function returns 20, while the formula claimed for it (weights 70/30)
gives 30. -/
theorem C2_counterexample :
    Expectimax.evaluateState (Expectimax.AgentState.mk 0.5 0 0.5 0.5 0) = 20
    ∧ (Expectimax.AgentState.mk 0.5 0 0.5 0.5 0).quality_score * 70
        + (Expectimax.AgentState.mk 0.5 0 0.5 0.5 0).task_progress * 30
        - ((Expectimax.AgentState.mk 0.5 0 0.5 0.5 0).error_count : ℚ) * 200
        - (Expectimax.AgentState.mk 0.5 0 0.5 0.5 0).resource_usage * 40 = 30
    ∧ (20 : ℚ) ≠ 30 := by
  refine ⟨?_, by norm_num, by norm_num⟩
  norm_num [Expectimax.evaluateState, Expectimax.AgentState.isTerminal]

/-- C2 (amended): both evaluation functions return 1000 on terminal
success and -1000 on terminal failure; on non-terminal states the minimax
module uses the weighted combination (70, 30, -200, -40) claimed by the
spec, while the expectimax module uses (60, 20, -100 drift, -200, -40). -/
theorem C2_evaluation_amended :
    (∀ s : Minimax.AgentState, 1 ≤ s.task_progress → Minimax.evaluateState s = 1000)
    ∧ (∀ s : Minimax.AgentState, s.quality_score ≤ 0.1 → ¬ 1 ≤ s.task_progress →
        Minimax.evaluateState s = -1000)
    ∧ (∀ s : Minimax.AgentState, ¬ s.isTerminal →
        Minimax.evaluateState s = s.quality_score * 70 + s.task_progress * 30
          - (s.error_count : ℚ) * 200 - s.resource_usage * 40)
    ∧ (∀ s : Expectimax.AgentState, 1 ≤ s.task_progress → Expectimax.evaluateState s = 1000)
    ∧ (∀ s : Expectimax.AgentState, s.quality_score ≤ 0.1 → ¬ 1 ≤ s.task_progress →
        Expectimax.evaluateState s = -1000)
    ∧ (∀ s : Expectimax.AgentState, ¬ s.isTerminal →
        Expectimax.evaluateState s = s.quality_score * 60 + s.task_progress * 20
          - s.drift_score * 100 - (s.error_count : ℚ) * 200 - s.resource_usage * 40) := by
  refine ⟨?_, ?_, ?_, ?_, ?_, ?_⟩
  · intro s h
    rw [Minimax.evaluateState, if_pos (show s.isTerminal from Or.inl h), if_pos h]
  · intro s hq ht
    rw [Minimax.evaluateState, if_pos (show s.isTerminal from Or.inr hq), if_neg ht]
  · intro s h
    rw [Minimax.evaluateState, if_neg h]
  · intro s h
    rw [Expectimax.evaluateState, if_pos (show s.isTerminal from Or.inl h), if_pos h]
  · intro s hq ht
    rw [Expectimax.evaluateState, if_pos (show s.isTerminal from Or.inr hq), if_neg ht]
  · intro s h
    rw [Expectimax.evaluateState, if_neg h]

/-- C2 witness: the amended evaluation formulas evaluated at concrete
non-terminal states of each module. -/
theorem C2_evaluation_amended_witness :
    ¬ (Minimax.AgentState.mk 0.5 0 0.5 0.5).isTerminal
    ∧ Minimax.evaluateState (Minimax.AgentState.mk 0.5 0 0.5 0.5)
        = (0.5 : ℚ) * 70 + 0.5 * 30 - 0 * 200 - 0.5 * 40
    ∧ ¬ (Expectimax.AgentState.mk 0.5 0 0.5 0.5 0.3).isTerminal
    ∧ Expectimax.evaluateState (Expectimax.AgentState.mk 0.5 0 0.5 0.5 0.3)
        = (0.5 : ℚ) * 60 + 0.5 * 20 - 0.3 * 100 - 0 * 200 - 0.5 * 40 := by
  have hm : ¬ (Minimax.AgentState.mk 0.5 0 0.5 0.5).isTerminal := by
    norm_num [Minimax.AgentState.isTerminal]
  have he : ¬ (Expectimax.AgentState.mk 0.5 0 0.5 0.5 0.3).isTerminal := by
    norm_num [Expectimax.AgentState.isTerminal]
  refine ⟨hm, ?_, he, ?_⟩
  · have := C2_evaluation_amended.2.2.1 (Minimax.AgentState.mk 0.5 0 0.5 0.5) hm
    simpa using this
  · have := C2_evaluation_amended.2.2.2.2.2 (Expectimax.AgentState.mk 0.5 0 0.5 0.5 0.3) he
    simpa using this

/-- C3: whenever the supervised state has accumulated at least three
errors, the only legal action in both policy engines is ESCALATE, and
get_best_action returns ESCALATE at every search depth. -/
theorem C3_mandatory_escalation (sm : Minimax.AgentState) (se : Expectimax.AgentState)
    (dm de : Nat) (hm : 3 ≤ sm.error_count) (he : 3 ≤ se.error_count) :
    Minimax.possibleActions sm = [Action.ESCALATE]
    ∧ (Minimax.getBestAction dm sm).best_action = Action.ESCALATE
    ∧ Expectimax.possibleActions se = [Action.ESCALATE]
    ∧ Expectimax.possibleActions se = [Action.ESCALATE]
    ∧ (Expectimax.getBestAction de se).best_action = Action.ESCALATE := by
  have h1 : Minimax.possibleActions sm = [Action.ESCALATE] := by
    rw [Minimax.possibleActions, if_pos hm]
  have h2 : Expectimax.possibleActions se = [Action.ESCALATE] := by
    rw [Expectimax.possibleActions, if_pos he]
  refine ⟨h1, ?_, h2, h2, ?_⟩
  · have hmem := mkBestResult_mem sm Action.ESCALATE []
      (fun a => (Minimax.minimaxRun dm (Minimax.applyAction sm a) false).1)
    rw [Minimax.getBestAction, h1]
    simpa using hmem
  · have hmem := mkBestResult_mem se Action.ESCALATE [] (Expectimax.getActionValue de se)
    rw [Expectimax.getBestAction, h2]
    simpa using hmem

/-- C3 witness: the mandatory escalation at the concrete bad state used by
the repository's own minimax test. -/
theorem C3_mandatory_escalation_witness :
    (3 : ℤ) ≤ (Minimax.AgentState.mk 0.2 3 0.8 0.1).error_count
    ∧ (Minimax.getBestAction 2 (Minimax.AgentState.mk 0.2 3 0.8 0.1)).best_action
        = Action.ESCALATE
    ∧ (Expectimax.getBestAction 2 (Expectimax.AgentState.mk 0.2 3 0.8 0.1 0)).best_action
        = Action.ESCALATE := by
  refine ⟨by norm_num, ?_, ?_⟩
  · exact (C3_mandatory_escalation (Minimax.AgentState.mk 0.2 3 0.8 0.1)
      (Expectimax.AgentState.mk 0.2 3 0.8 0.1 0) 2 2 (by norm_num) (by norm_num)).2.1
  · exact (C3_mandatory_escalation (Minimax.AgentState.mk 0.2 3 0.8 0.1)
      (Expectimax.AgentState.mk 0.2 3 0.8 0.1 0) 2 2 (by norm_num) (by norm_num)).2.2.2.2

/-- C4 counterexample: at quality exactly 0.9 with no errors, the minimax
module's legal action set contains all four actions, not exactly
ALLOW-and-WARN, because its high-quality branch tests strict inequality. -/
theorem C4_counterexample :
    (0.9 : ℚ) ≤ (Minimax.AgentState.mk 0.9 0 0.5 0.5).quality_score
    ∧ (Minimax.AgentState.mk 0.9 0 0.5 0.5).error_count < 3
    ∧ Minimax.possibleActions (Minimax.AgentState.mk 0.9 0 0.5 0.5)
        = [Action.ALLOW, Action.WARN, Action.CORRECT, Action.ESCALATE] := by
  refine ⟨by norm_num, by norm_num, ?_⟩
  rw [Minimax.possibleActions]
  rw [if_neg (by norm_num), if_neg (by norm_num), if_neg (by norm_num)]

/-- C4 (amended): with fewer than three errors, the expectimax module's
legal set is exactly ALLOW-and-WARN whenever quality is at least 0.9, and
the minimax module's whenever quality is strictly above 0.9; in both cases
get_best_action returns ALLOW or WARN.  At quality exactly 0.9 the minimax
module instead offers all four actions. -/
theorem C4_high_quality_amended :
    (∀ (s : Expectimax.AgentState) (d : Nat), 0.9 ≤ s.quality_score → s.error_count < 3 →
      Expectimax.possibleActions s = [Action.ALLOW, Action.WARN]
      ∧ ((Expectimax.getBestAction d s).best_action = Action.ALLOW
          ∨ (Expectimax.getBestAction d s).best_action = Action.WARN))
    ∧ (∀ (s : Minimax.AgentState) (d : Nat), 0.9 < s.quality_score → s.error_count < 3 →
      Minimax.possibleActions s = [Action.ALLOW, Action.WARN]
      ∧ ((Minimax.getBestAction d s).best_action = Action.ALLOW
          ∨ (Minimax.getBestAction d s).best_action = Action.WARN))
    ∧ (∀ s : Minimax.AgentState, s.quality_score = 0.9 → s.error_count < 3 →
      Minimax.possibleActions s
        = [Action.ALLOW, Action.WARN, Action.CORRECT, Action.ESCALATE]) := by
  refine ⟨?_, ?_, ?_⟩
  · intro s d hq he
    have h1 : Expectimax.possibleActions s = [Action.ALLOW, Action.WARN] := by
      rw [Expectimax.possibleActions, if_neg (not_le.mpr he), if_pos hq]
    refine ⟨h1, ?_⟩
    have hmem := mkBestResult_mem s Action.ALLOW [Action.WARN]
      (Expectimax.getActionValue d s)
    rw [Expectimax.getBestAction, h1]
    simpa using hmem
  · intro s d hq he
    have h1 : Minimax.possibleActions s = [Action.ALLOW, Action.WARN] := by
      rw [Minimax.possibleActions, if_neg (not_le.mpr he), if_pos hq]
    refine ⟨h1, ?_⟩
    have hmem := mkBestResult_mem s Action.ALLOW [Action.WARN]
      (fun a => (Minimax.minimaxRun d (Minimax.applyAction s a) false).1)
    rw [Minimax.getBestAction, h1]
    simpa using hmem
  · intro s hq he
    rw [Minimax.possibleActions, if_neg (not_le.mpr he), if_neg (by rw [hq]; norm_num),
      if_neg (by rw [hq]; norm_num)]

/-- C4 witness: the amended high-quality behaviour at the concrete good
states used by the repository's own minimax test. -/
theorem C4_high_quality_amended_witness :
    (0.9 : ℚ) ≤ (Expectimax.AgentState.mk 0.95 0 0.2 0.8 0).quality_score
    ∧ ((Expectimax.getBestAction 2 (Expectimax.AgentState.mk 0.95 0 0.2 0.8 0)).best_action
          = Action.ALLOW
        ∨ (Expectimax.getBestAction 2 (Expectimax.AgentState.mk 0.95 0 0.2 0.8 0)).best_action
          = Action.WARN)
    ∧ ((Minimax.getBestAction 2 (Minimax.AgentState.mk 0.95 0 0.2 0.8)).best_action
          = Action.ALLOW
        ∨ (Minimax.getBestAction 2 (Minimax.AgentState.mk 0.95 0 0.2 0.8)).best_action
          = Action.WARN)
    ∧ Minimax.possibleActions (Minimax.AgentState.mk 0.9 0 0.5 0.5)
        = [Action.ALLOW, Action.WARN, Action.CORRECT, Action.ESCALATE] := by
  refine ⟨by norm_num, ?_, ?_, ?_⟩
  · exact (C4_high_quality_amended.1 (Expectimax.AgentState.mk 0.95 0 0.2 0.8 0) 2
      (by norm_num) (by norm_num)).2
  · exact (C4_high_quality_amended.2.1 (Minimax.AgentState.mk 0.95 0 0.2 0.8) 2
      (by norm_num) (by norm_num)).2
  · exact C4_high_quality_amended.2.2 (Minimax.AgentState.mk 0.9 0 0.5 0.5)
      (by norm_num) (by norm_num)

/-- C6: both get_best_action implementations are pure functions of the
input state: equal inputs give equal result records, and the state
reported back in the result is the unchanged input (the embedding threads
the one in-place mutation of the minimax search, which only ever targets
fresh per-action copies, never the input object). -/
theorem C6_get_best_action_pure :
    (∀ (d : Nat) (s t : Expectimax.AgentState), s = t →
      Expectimax.getBestAction d s = Expectimax.getBestAction d t
        ∧ (Expectimax.getBestAction d s).state_evaluated = s)
    ∧ (∀ (d : Nat) (s t : Minimax.AgentState), s = t →
      Minimax.getBestAction d s = Minimax.getBestAction d t
        ∧ (Minimax.getBestAction d s).state_evaluated = s) := by
  constructor <;> intro d s t h <;> subst h <;> exact ⟨rfl, rfl⟩

/-- C6 witness: purity of both engines at a concrete medium state. -/
theorem C6_get_best_action_pure_witness :
    Expectimax.AgentState.mk 0.6 1 0.5 0.5 0 = Expectimax.AgentState.mk 0.6 1 0.5 0.5 0
    ∧ (Expectimax.getBestAction 2 (Expectimax.AgentState.mk 0.6 1 0.5 0.5 0)).state_evaluated
        = Expectimax.AgentState.mk 0.6 1 0.5 0.5 0
    ∧ (Minimax.getBestAction 2 (Minimax.AgentState.mk 0.6 1 0.5 0.5)).state_evaluated
        = Minimax.AgentState.mk 0.6 1 0.5 0.5 :=
  ⟨rfl, (C6_get_best_action_pure.1 2 _ _ rfl).2, (C6_get_best_action_pure.2 2 _ _ rfl).2⟩

/-- C10: every successor state produced by the expectimax outcome model
has drift score zero, whatever the drift score of the input state was: the
base successor is built from the four main fields only, so the drift field
falls back to its default. -/
theorem C10_drift_dropped (s : Expectimax.AgentState) (a : Action) (p : ℚ)
    (s2 : Expectimax.AgentState) (h : (p, s2) ∈ Expectimax.getActionOutcomes s a) :
    s2.drift_score = 0 := by
  cases a with
  | ALLOW =>
    simp only [Expectimax.getActionOutcomes, List.mem_cons, List.not_mem_nil, or_false,
      Prod.mk.injEq] at h
    rcases h with ⟨-, h2⟩ | ⟨-, h2⟩ <;> rw [h2]
  | WARN =>
    simp only [Expectimax.getActionOutcomes, List.mem_cons, List.not_mem_nil, or_false,
      Prod.mk.injEq] at h
    rcases h with ⟨-, h2⟩
    rw [h2]
  | CORRECT =>
    simp only [Expectimax.getActionOutcomes, List.mem_cons, List.not_mem_nil, or_false,
      Prod.mk.injEq] at h
    rcases h with ⟨-, h2⟩ | ⟨-, h2⟩ <;> rw [h2]
    split_ifs <;> rfl
  | ESCALATE =>
    simp only [Expectimax.getActionOutcomes, List.mem_cons, List.not_mem_nil, or_false,
      Prod.mk.injEq] at h
    rcases h with ⟨-, h2⟩
    rw [h2]

/-- C1: on a non-terminal state at depth at least one, the score the
expectimax engine assigns to an action is the probability-weighted sum,
over the action's outcomes, of the maximum over legal next actions of the
recursive value at one depth less; the recursion bottoms out at depth 0 or
a terminal state with the static evaluation; and the returned best action
is the first scored action carrying the greatest score (earlier actions
score strictly less, later ones at most as much). -/
theorem C1_expectimax_search (s : Expectimax.AgentState) (d : Nat)
    (hd : 1 ≤ d) (hterm : ¬ s.isTerminal) :
    (∀ a : Action,
      Expectimax.getActionValue d s a =
        ((Expectimax.getActionOutcomes s a).map
          (fun po => po.1 * maxQ ((Expectimax.possibleActions po.2).map
            (Expectimax.getActionValue (d - 1) po.2)))).sum)
    ∧ (∀ (s2 : Expectimax.AgentState) (a : Action),
        Expectimax.getActionValue 0 s2 a = Expectimax.evaluateState s2)
    ∧ (∀ (d2 : Nat) (s2 : Expectimax.AgentState) (a : Action), s2.isTerminal →
        Expectimax.getActionValue d2 s2 a = Expectimax.evaluateState s2)
    ∧ (∃ v l1 l2,
        (Expectimax.possibleActions s).map (fun a => (a, Expectimax.getActionValue d s a))
            = l1 ++ ((Expectimax.getBestAction d s).best_action, v) :: l2
          ∧ (Expectimax.getBestAction d s).best_score = some v
          ∧ Expectimax.getActionValue d s (Expectimax.getBestAction d s).best_action = v
          ∧ (∀ x ∈ l1, x.2 < v) ∧ (∀ x ∈ l2, x.2 ≤ v)) := by
  refine ⟨?_, ?_, ?_, ?_⟩
  · intro a
    obtain ⟨d0, rfl⟩ : ∃ d0, d = d0 + 1 := ⟨d - 1, (Nat.succ_pred_eq_of_pos hd).symm⟩
    simp only [Expectimax.getActionValue, if_neg hterm, Nat.add_sub_cancel]
  · intro s2 a
    rfl
  · intro d2 s2 a h2
    cases d2 with
    | zero => rfl
    | succ d3 => simp only [Expectimax.getActionValue, if_pos h2]
  · obtain ⟨a0, as, hcons⟩ : ∃ a0 as, Expectimax.possibleActions s = a0 :: as := by
      cases h : Expectimax.possibleActions s with
      | nil => exact absurd h (Expectimax.expectimax_possibleActions_ne_nil s)
      | cons a0 as => exact ⟨a0, as, rfl⟩
    have hgb : Expectimax.getBestAction d s
        = mkBestResult s (a0 :: as) (Expectimax.getActionValue d s) := by
      rw [Expectimax.getBestAction, hcons]
    obtain ⟨v, l1, l2, hsplit, hbs, hsc, hlt, hle, -⟩ :=
      mkBestResult_spec s a0 as (Expectimax.getActionValue d s)
    refine ⟨v, l1, l2, ?_, ?_, ?_, hlt, hle⟩
    · rw [hcons, hgb]
      exact hsplit
    · rw [hgb]
      exact hbs
    · rw [hgb]
      exact hsc

/-- C1 witness: the recursive score identity at the concrete non-terminal
medium-quality state, depth 2, action WARN. -/
theorem C1_expectimax_search_witness :
    (1 : Nat) ≤ 2
    ∧ ¬ (Expectimax.AgentState.mk 0.5 0 0.2 0.5 0).isTerminal
    ∧ Expectimax.getActionValue 2 (Expectimax.AgentState.mk 0.5 0 0.2 0.5 0) Action.WARN
        = ((Expectimax.getActionOutcomes (Expectimax.AgentState.mk 0.5 0 0.2 0.5 0)
              Action.WARN).map
            (fun po => po.1 * maxQ ((Expectimax.possibleActions po.2).map
              (Expectimax.getActionValue (2 - 1) po.2)))).sum := by
  refine ⟨by norm_num, ?_, ?_⟩
  · norm_num [Expectimax.AgentState.isTerminal]
  · exact (C1_expectimax_search (Expectimax.AgentState.mk 0.5 0 0.2 0.5 0) 2 (by norm_num)
      (by norm_num [Expectimax.AgentState.isTerminal])).1 Action.WARN

/-- A value clamped from above by 1 stays in the unit interval when it was
non-negative. -/
theorem clamp01 (x : ℚ) (hx : 0 ≤ x) : 0 ≤ min 1 x ∧ min 1 x ≤ 1 :=
  ⟨le_min (by norm_num) hx, min_le_left 1 x⟩

/-- C5 counterexample: from the in-domain state with task progress 0.95,
the first ALLOW outcome of the expectimax transition model has task
progress 1.05, outside the unit interval. -/
theorem C5_counterexample :
    0 ≤ (Expectimax.AgentState.mk 0.5 0 0 0.95 0).task_progress
    ∧ (Expectimax.AgentState.mk 0.5 0 0 0.95 0).task_progress ≤ 1
    ∧ ((0.8 : ℚ), Expectimax.AgentState.mk 0.475 0 0.05 1.05 0)
        ∈ Expectimax.getActionOutcomes (Expectimax.AgentState.mk 0.5 0 0 0.95 0) Action.ALLOW
    ∧ ¬ ((Expectimax.AgentState.mk 0.475 0 0.05 1.05 0).task_progress ≤ 1) := by
  refine ⟨by norm_num, by norm_num, ?_, by norm_num⟩
  simp only [Expectimax.getActionOutcomes, List.mem_cons, Prod.mk.injEq,
    Expectimax.AgentState.mk.injEq]
  left
  norm_num [min_def]

set_option maxHeartbeats 2000000 in
/-- C5 (amended): from any state whose fields are in their domains, every
successor produced by either transition model keeps quality and resource
usage in the unit interval and the error count non-negative, and keeps
task progress non-negative, but task progress is not clamped above: it can
reach at most 1.1 (and any value at least 1.0 makes the successor a
terminal success). -/
theorem C5_domains_amended :
    (∀ (s : Expectimax.AgentState) (a : Action) (p : ℚ) (s2 : Expectimax.AgentState),
      0 ≤ s.quality_score → s.quality_score ≤ 1 →
      0 ≤ s.resource_usage → s.resource_usage ≤ 1 →
      0 ≤ s.task_progress → s.task_progress ≤ 1 →
      0 ≤ s.error_count →
      (p, s2) ∈ Expectimax.getActionOutcomes s a →
        0 ≤ s2.quality_score ∧ s2.quality_score ≤ 1
          ∧ 0 ≤ s2.resource_usage ∧ s2.resource_usage ≤ 1
          ∧ 0 ≤ s2.error_count
          ∧ 0 ≤ s2.task_progress ∧ s2.task_progress ≤ 11 / 10)
    ∧ (∀ (s : Minimax.AgentState) (a : Action),
      0 ≤ s.quality_score → s.quality_score ≤ 1 →
      0 ≤ s.resource_usage → s.resource_usage ≤ 1 →
      0 ≤ s.task_progress → s.task_progress ≤ 1 →
      0 ≤ s.error_count →
        0 ≤ (Minimax.applyAction s a).quality_score
          ∧ (Minimax.applyAction s a).quality_score ≤ 1
          ∧ 0 ≤ (Minimax.applyAction s a).resource_usage
          ∧ (Minimax.applyAction s a).resource_usage ≤ 1
          ∧ 0 ≤ (Minimax.applyAction s a).error_count
          ∧ 0 ≤ (Minimax.applyAction s a).task_progress
          ∧ (Minimax.applyAction s a).task_progress ≤ 11 / 10) := by
  constructor
  · intro s a p s2 hq0 hq1 hr0 hr1 ht0 ht1 he hmem
    cases a <;>
      simp only [Expectimax.getActionOutcomes, List.mem_cons, List.not_mem_nil, or_false,
        Prod.mk.injEq] at hmem <;>
      [rcases hmem with ⟨-, rfl⟩ | ⟨-, rfl⟩;
       rcases hmem with ⟨-, rfl⟩;
       rcases hmem with ⟨-, rfl⟩ | ⟨-, rfl⟩;
       rcases hmem with ⟨-, rfl⟩] <;>
      refine ⟨?_, ?_, ?_, ?_, ?_, ?_, ?_⟩ <;>
      (try dsimp only) <;>
      (try simp only [min_def, max_def]) <;>
      (try split_ifs) <;>
      (try dsimp only) <;>
      linarith
  · intro s a hq0 hq1 hr0 hr1 ht0 ht1 he
    cases a with
    | ALLOW =>
      have h : Minimax.applyAction s Action.ALLOW =
          { quality_score := s.quality_score * 0.95, error_count := s.error_count,
            resource_usage := min 1 (s.resource_usage + 0.05),
            task_progress := s.task_progress + 0.1 } := rfl
      rw [h]
      refine ⟨?_, ?_, ?_, ?_, ?_, ?_, ?_⟩ <;>
        (try dsimp only) <;> (try simp only [min_def, max_def]) <;> (try split_ifs) <;> linarith
    | WARN =>
      have h : Minimax.applyAction s Action.WARN =
          { quality_score := s.quality_score, error_count := s.error_count,
            resource_usage := min 1 (min 1 (s.resource_usage + 0.1) + 0.05),
            task_progress := s.task_progress + 0.05 } := rfl
      rw [h]
      refine ⟨?_, ?_, ?_, ?_, ?_, ?_, ?_⟩ <;>
        (try dsimp only) <;> (try simp only [min_def, max_def]) <;> (try split_ifs) <;> linarith
    | CORRECT =>
      rcases lt_or_ge s.quality_score 0.85 with hc | hc
      · have h : Minimax.applyAction s Action.CORRECT =
            { quality_score := min 1 (s.quality_score + 0.4 * (1 - s.quality_score)),
              error_count := max 0 (s.error_count - 1),
              resource_usage := min 1 (min 1 (s.resource_usage + 0.15) + 0.05),
              task_progress := s.task_progress + 0.1 } := by
          simp only [Minimax.applyAction, if_pos hc]
        rw [h]
        refine ⟨?_, ?_, ?_, ?_, ?_, ?_, ?_⟩ <;>
          (try dsimp only) <;> (try simp only [min_def, max_def]) <;> (try split_ifs) <;>
          linarith
      · have h : Minimax.applyAction s Action.CORRECT =
            { quality_score := s.quality_score, error_count := s.error_count,
              resource_usage := min 1 (min 1 (s.resource_usage + 0.15) + 0.05),
              task_progress := s.task_progress + 0.1 } := by
          simp only [Minimax.applyAction, if_neg (not_lt.mpr hc)]
        rw [h]
        refine ⟨?_, ?_, ?_, ?_, ?_, ?_, ?_⟩ <;>
          (try dsimp only) <;> (try simp only [min_def, max_def]) <;> (try split_ifs) <;> linarith
    | ESCALATE =>
      have h : Minimax.applyAction s Action.ESCALATE =
          { quality_score := s.quality_score * 0.1, error_count := s.error_count + 1,
            resource_usage := min 1 (s.resource_usage + 0.05),
            task_progress := s.task_progress * 0.2 } := rfl
      rw [h]
      refine ⟨?_, ?_, ?_, ?_, ?_, ?_, ?_⟩ <;>
        (try dsimp only) <;> (try simp only [min_def, max_def]) <;> (try split_ifs) <;> linarith

/-- C5 witness: the amended domain preservation evaluated on a concrete
in-domain state for each transition model. -/
theorem C5_domains_amended_witness :
    (((0.8 : ℚ), Expectimax.AgentState.mk 0.475 0 0.05 0.6 0)
        ∈ Expectimax.getActionOutcomes (Expectimax.AgentState.mk 0.5 0 0 0.5 0) Action.ALLOW)
    ∧ (0 ≤ (Expectimax.AgentState.mk 0.475 0 0.05 0.6 0).quality_score
        ∧ (Expectimax.AgentState.mk 0.475 0 0.05 0.6 0).quality_score ≤ 1
        ∧ 0 ≤ (Expectimax.AgentState.mk 0.475 0 0.05 0.6 0).resource_usage
        ∧ (Expectimax.AgentState.mk 0.475 0 0.05 0.6 0).resource_usage ≤ 1
        ∧ 0 ≤ (Expectimax.AgentState.mk 0.475 0 0.05 0.6 0).error_count
        ∧ 0 ≤ (Expectimax.AgentState.mk 0.475 0 0.05 0.6 0).task_progress
        ∧ (Expectimax.AgentState.mk 0.475 0 0.05 0.6 0).task_progress ≤ 11 / 10)
    ∧ (0 ≤ (Minimax.applyAction (Minimax.AgentState.mk 0.5 0 0 0.5) Action.WARN).quality_score
        ∧ (Minimax.applyAction (Minimax.AgentState.mk 0.5 0 0 0.5) Action.WARN).quality_score ≤ 1
        ∧ 0 ≤ (Minimax.applyAction (Minimax.AgentState.mk 0.5 0 0 0.5) Action.WARN).resource_usage
        ∧ (Minimax.applyAction (Minimax.AgentState.mk 0.5 0 0 0.5) Action.WARN).resource_usage ≤ 1
        ∧ 0 ≤ (Minimax.applyAction (Minimax.AgentState.mk 0.5 0 0 0.5) Action.WARN).error_count
        ∧ 0 ≤ (Minimax.applyAction (Minimax.AgentState.mk 0.5 0 0 0.5) Action.WARN).task_progress
        ∧ (Minimax.applyAction (Minimax.AgentState.mk 0.5 0 0 0.5) Action.WARN).task_progress
            ≤ 11 / 10) := by
  have hmem : ((0.8 : ℚ), Expectimax.AgentState.mk 0.475 0 0.05 0.6 0)
      ∈ Expectimax.getActionOutcomes (Expectimax.AgentState.mk 0.5 0 0 0.5 0) Action.ALLOW := by
    simp only [Expectimax.getActionOutcomes, List.mem_cons, Prod.mk.injEq,
      Expectimax.AgentState.mk.injEq]
    left
    norm_num [min_def]
  refine ⟨hmem, ?_, ?_⟩
  · exact C5_domains_amended.1 (Expectimax.AgentState.mk 0.5 0 0 0.5 0) Action.ALLOW 0.8
      (Expectimax.AgentState.mk 0.475 0 0.05 0.6 0) (by norm_num) (by norm_num) (by norm_num)
      (by norm_num) (by norm_num) (by norm_num) (by norm_num) hmem
  · exact C5_domains_amended.2 (Minimax.AgentState.mk 0.5 0 0 0.5) Action.WARN (by norm_num)
      (by norm_num) (by norm_num) (by norm_num) (by norm_num) (by norm_num) (by norm_num)

/-- C10 witness: the first ALLOW outcome of a state with drift 0.7 has
drift 0. -/
theorem C10_drift_dropped_witness :
    ((0.8 : ℚ), Expectimax.AgentState.mk 0.475 0 0.05 0.6 0)
        ∈ Expectimax.getActionOutcomes (Expectimax.AgentState.mk 0.5 0 0 0.5 0.7) Action.ALLOW
    ∧ (Expectimax.AgentState.mk 0.475 0 0.05 0.6 0).drift_score = 0 := by
  have hmem : ((0.8 : ℚ), Expectimax.AgentState.mk 0.475 0 0.05 0.6 0)
      ∈ Expectimax.getActionOutcomes (Expectimax.AgentState.mk 0.5 0 0 0.5 0.7) Action.ALLOW := by
    simp only [Expectimax.getActionOutcomes, List.mem_cons, Prod.mk.injEq,
      Expectimax.AgentState.mk.injEq]
    left
    norm_num [min_def]
  exact ⟨hmem, C10_drift_dropped _ Action.ALLOW _ _ hmem⟩

/-- Bridge between the boolean agent predicate searched by
`find_available_agent` and its propositional reading. -/
theorem agentPred_iff (required : List String) (ag : Orchestrator.ManagedAgent) :
    (ag.status == Orchestrator.AgentStatus.IDLE
        && required.all (fun c => ag.capabilities.contains c)) = true
      ↔ (ag.status = Orchestrator.AgentStatus.IDLE ∧ ∀ c ∈ required, c ∈ ag.capabilities) := by
  simp [List.all_eq_true]

/-- C9: `find_available_agent` never returns a busy agent; a returned
agent is idle, covers every required capability, and is the first such
agent in registration order; and `none` is returned exactly when no
registered agent is idle with all required capabilities.  The operation is
a pure read of the registry. -/
theorem C9_find_available_agent (pool : List Orchestrator.ManagedAgent)
    (required : List String) :
    (∀ a : Orchestrator.ManagedAgent, Orchestrator.findAvailableAgent pool required = some a →
      a.status ≠ Orchestrator.AgentStatus.BUSY
      ∧ a.status = Orchestrator.AgentStatus.IDLE
      ∧ (∀ c ∈ required, c ∈ a.capabilities)
      ∧ ∃ l1 l2, pool = l1 ++ a :: l2
          ∧ ∀ b ∈ l1, ¬ (b.status = Orchestrator.AgentStatus.IDLE
              ∧ ∀ c ∈ required, c ∈ b.capabilities))
    ∧ (Orchestrator.findAvailableAgent pool required = none ↔
        ∀ a ∈ pool, ¬ (a.status = Orchestrator.AgentStatus.IDLE
            ∧ ∀ c ∈ required, c ∈ a.capabilities)) := by
  constructor
  · intro a h
    have hp := List.find?_some h
    obtain ⟨hst, hcaps⟩ := (agentPred_iff required a).mp hp
    refine ⟨by simp [hst], hst, hcaps, ?_⟩
    obtain ⟨l1, l2, hsplit, hnb⟩ := find?_split _ pool a h
    exact ⟨l1, l2, hsplit, fun b hb hcontra => hnb b hb ((agentPred_iff required b).mpr hcontra)⟩
  · rw [Orchestrator.findAvailableAgent, List.find?_eq_none]
    constructor
    · intro h a ha hcontra
      exact h a ha ((agentPred_iff required a).mpr hcontra)
    · intro h a ha hp
      exact h a ha ((agentPred_iff required a).mp hp)

/-- C9 witness: with a busy python agent registered before an idle one,
lookup skips the busy agent and returns the idle one. -/
theorem C9_find_available_agent_witness :
    Orchestrator.findAvailableAgent
        [Orchestrator.ManagedAgent.mk "agent-3" "BusyAgent" ["python"]
            Orchestrator.AgentStatus.BUSY none 0,
         Orchestrator.ManagedAgent.mk "agent-1" "PythonAgent" ["python", "file_io"]
            Orchestrator.AgentStatus.IDLE none 0] ["python"]
        = some (Orchestrator.ManagedAgent.mk "agent-1" "PythonAgent" ["python", "file_io"]
            Orchestrator.AgentStatus.IDLE none 0)
    ∧ (Orchestrator.ManagedAgent.mk "agent-1" "PythonAgent" ["python", "file_io"]
        Orchestrator.AgentStatus.IDLE none 0).status ≠ Orchestrator.AgentStatus.BUSY := by
  have hfind : Orchestrator.findAvailableAgent
      [Orchestrator.ManagedAgent.mk "agent-3" "BusyAgent" ["python"]
          Orchestrator.AgentStatus.BUSY none 0,
       Orchestrator.ManagedAgent.mk "agent-1" "PythonAgent" ["python", "file_io"]
          Orchestrator.AgentStatus.IDLE none 0] ["python"]
      = some (Orchestrator.ManagedAgent.mk "agent-1" "PythonAgent" ["python", "file_io"]
          Orchestrator.AgentStatus.IDLE none 0) := rfl
  exact ⟨hfind, ((C9_find_available_agent _ ["python"]).1 _ hfind).1⟩

/-- C8: a goal description containing both the scrape and script keywords
(after lowercasing) decomposes into exactly three tasks, the second and
third of which depend exactly on the first, which itself has no
dependencies; any other description decomposes into a single task whose
required capability set is the general capability. -/
theorem C8_decomposition (n : Nat) (g d : String) :
    (Orchestrator.scrapeScriptTrigger d = true →
      (Orchestrator.submitGoal n g d).tasks.length = 3
      ∧ (Orchestrator.submitGoal n g d).tasks.map Orchestrator.OrchestrationTask.dependencies
          = [[], ["goal-" ++ toString (n + 1) ++ "-t1"], ["goal-" ++ toString (n + 1) ++ "-t1"]]
      ∧ ((Orchestrator.submitGoal n g d).tasks.map Orchestrator.OrchestrationTask.task_id).head?
          = some ("goal-" ++ toString (n + 1) ++ "-t1"))
    ∧ (Orchestrator.scrapeScriptTrigger d = false →
      (Orchestrator.submitGoal n g d).tasks.length = 1
      ∧ (Orchestrator.submitGoal n g d).tasks.map
          Orchestrator.OrchestrationTask.required_capabilities = [["general"]]) := by
  constructor
  · intro h
    refine ⟨?_, ?_, ?_⟩ <;> simp [Orchestrator.submitGoal, h]
  · intro h
    refine ⟨?_, ?_⟩ <;> simp [Orchestrator.submitGoal, h]

/-- C8 witness: the scrape-and-script description used by the repository's
own orchestrator test yields the three-task graph, and a plain description
yields the single general task. -/
theorem C8_decomposition_witness :
    Orchestrator.scrapeScriptTrigger "Create a Python script that can scrape a website." = true
    ∧ Orchestrator.scrapeScriptTrigger "Summarize the quarterly figures" = false
    ∧ (Orchestrator.submitGoal 0 "Scraping Project"
        "Create a Python script that can scrape a website.").tasks.length = 3
    ∧ (Orchestrator.submitGoal 0 "Scraping Project"
        "Create a Python script that can scrape a website.").tasks.map
          Orchestrator.OrchestrationTask.dependencies
        = [[], ["goal-1-t1"], ["goal-1-t1"]]
    ∧ (Orchestrator.submitGoal 0 "Simple" "Summarize the quarterly figures").tasks.map
        Orchestrator.OrchestrationTask.required_capabilities = [["general"]] := by
  have h1 : Orchestrator.scrapeScriptTrigger
      "Create a Python script that can scrape a website." = true := rfl
  have h2 : Orchestrator.scrapeScriptTrigger "Summarize the quarterly figures" = false := rfl
  refine ⟨h1, h2, ?_, ?_, ?_⟩
  · exact ((C8_decomposition 0 "Scraping Project"
      "Create a Python script that can scrape a website.").1 h1).1
  · exact ((C8_decomposition 0 "Scraping Project"
      "Create a Python script that can scrape a website.").1 h1).2.1
  · exact ((C8_decomposition 0 "Simple" "Summarize the quarterly figures").2 h2).2

/-- C7: the execution wrapper records the task outcome as the claim says
(intervention required gives FAILED, otherwise COMPLETED, with the
validation result and a completion timestamp; an exception gives FAILED
with the error captured), but the guaranteed final release of the agent
never happens: `update_agent_status` acquires the orchestrator's
non-reentrant lock and then calls `get_agent`, which acquires it again, so
the release step blocks forever in every case. -/
theorem C7_execute_task_release_deadlock :
    ((Orchestrator.executeTask (Except.ok (Orchestrator.ValidationResult.mk false))
        Orchestrator.demoTask Orchestrator.demoPool "agent-1" 9).1.status
        = Orchestrator.TaskStatus.COMPLETED)
    ∧ ((Orchestrator.executeTask (Except.ok (Orchestrator.ValidationResult.mk false))
        Orchestrator.demoTask Orchestrator.demoPool "agent-1" 9).1.output_data
        = some (Orchestrator.TaskOutput.validated (Orchestrator.ValidationResult.mk false)))
    ∧ ((Orchestrator.executeTask (Except.ok (Orchestrator.ValidationResult.mk false))
        Orchestrator.demoTask Orchestrator.demoPool "agent-1" 9).1.completed_at = some 9)
    ∧ ((Orchestrator.executeTask (Except.ok (Orchestrator.ValidationResult.mk true))
        Orchestrator.demoTask Orchestrator.demoPool "agent-1" 9).1.status
        = Orchestrator.TaskStatus.FAILED)
    ∧ ((Orchestrator.executeTask (Except.error "boom")
        Orchestrator.demoTask Orchestrator.demoPool "agent-1" 9).1.status
        = Orchestrator.TaskStatus.FAILED)
    ∧ ((Orchestrator.executeTask (Except.error "boom")
        Orchestrator.demoTask Orchestrator.demoPool "agent-1" 9).1.output_data
        = some (Orchestrator.TaskOutput.failure "boom"))
    ∧ ((Orchestrator.executeTask (Except.ok (Orchestrator.ValidationResult.mk false))
        Orchestrator.demoTask Orchestrator.demoPool "agent-1" 9).2 = none)
    ∧ ((Orchestrator.executeTask (Except.ok (Orchestrator.ValidationResult.mk true))
        Orchestrator.demoTask Orchestrator.demoPool "agent-1" 9).2 = none)
    ∧ ((Orchestrator.executeTask (Except.error "boom")
        Orchestrator.demoTask Orchestrator.demoPool "agent-1" 9).2 = none)
    ∧ (Orchestrator.updateAgentStatusL Orchestrator.demoPool "agent-1"
        Orchestrator.AgentStatus.IDLE none 9 = none) :=
  ⟨rfl, rfl, rfl, rfl, rfl, rfl, rfl, rfl, rfl, rfl⟩

end Supervisorai
